import Mathlib

/-
Verification development for the Proma provider/title subsystem.

Definitions are shallow embeddings of the TypeScript sources:
  - renderer/components/chat/title-trigger.ts     (title trigger decision)
  - main/lib/chat-tool-executor.ts                (title sanitation utilities)
  - main/lib/agent-title-utils.ts                 (agent fallback title)
  - providers/title-extract.ts                    (response-shape extractor)
Parts of the provider core whose implementation is not in the snapshot
(the Anthropic title-request builder, the title fetcher with diagnostics,
the SSE reader) are modelled from the specification; each such definition
carries a doc comment starting with "Modelled from the spec:".

JavaScript strings are modelled as Lean `String`, numbers occurring as
message counts as `Int`, parsed JSON values as the inductive `Json` below.
-/

namespace Proma

/-! ### JavaScript string primitives

The JavaScript string methods used by the sources (`trim`, `split`,
`replace(/\s+/g, ...)`, `slice`, `startsWith`) are modelled on the character
list underlying a Lean `String`, so that every definition evaluates by
rewriting during proofs. -/

/-- Drop from both ends of a character list every character satisfying `p`. -/
def dropEnds (p : Char → Bool) (cs : List Char) : List Char :=
  ((cs.dropWhile p).reverse.dropWhile p).reverse

/-- Model of `String.prototype.trim` on character lists. -/
def trimWS (cs : List Char) : List Char :=
  dropEnds Char.isWhitespace cs

/-- Model of `value.trim()` on strings. -/
def trimString (s : String) : String :=
  String.mk (trimWS s.data)

/-- Maximal runs of non-whitespace characters of a character list, in order. -/
def wsWords : List Char → List (List Char)
  | [] => []
  | c :: rest =>
      if c.isWhitespace then wsWords rest
      else
        match wsWords rest with
        | [] => [[c]]
        | w :: ws =>
            match rest with
            | [] => [[c]]
            | d :: _ => if d.isWhitespace then [c] :: w :: ws else (c :: w) :: ws

/-- Model of `value.replace(/\s+/g, ' ').trim()` on character lists: the
non-whitespace runs joined by single spaces. -/
def normChars (cs : List Char) : List Char :=
  List.intercalate [' '] (wsWords cs)

/-- Model of `value.split('\n')` on character lists. -/
def splitLines : List Char → List (List Char)
  | [] => [[]]
  | c :: rest =>
      if c = '\n' then [] :: splitLines rest
      else
        match splitLines rest with
        | l :: ls => (c :: l) :: ls
        | [] => [[c]]

/-! ### Title trigger decision — title-trigger.ts -/

/-- Input record of `decideTitleTrigger` (title-trigger.ts, `TitleTriggerInput`). -/
structure TitleTriggerInput where
  skipAutoTitle : Bool
  messageCountBeforeSend : Int
  content : String
  alreadyTriggered : Bool

/-- Reason component of a trigger decision (title-trigger.ts, `TitleTriggerDecision.reason`). -/
inductive TriggerReason where
  | should_queue
  | skip_auto_title_option
  | not_first_message
  | empty_user_message
  | duplicate_first_turn_guard
deriving DecidableEq, Repr

/-- Decision record (title-trigger.ts, `TitleTriggerDecision`). -/
structure TitleTriggerDecision where
  shouldQueue : Bool
  reason : TriggerReason
deriving DecidableEq, Repr

/-- Embedding of `decideTitleTrigger` (title-trigger.ts lines 22-40): four guarded
early returns followed by the positive decision. -/
def decideTitleTrigger (input : TitleTriggerInput) : TitleTriggerDecision :=
  if input.skipAutoTitle then
    ⟨false, TriggerReason.skip_auto_title_option⟩
  else if input.messageCountBeforeSend ≠ 0 then
    ⟨false, TriggerReason.not_first_message⟩
  else if trimWS input.content.data = [] then
    ⟨false, TriggerReason.empty_user_message⟩
  else if input.alreadyTriggered then
    ⟨false, TriggerReason.duplicate_first_turn_guard⟩
  else
    ⟨true, TriggerReason.should_queue⟩

/-! ### Title sanitation utilities — chat-tool-executor.ts lines 283-327 -/

/-- Character class of the regex in `stripWrappingPunctuation`
(chat-tool-executor.ts line 295): whitespace plus wrapping quotation and
bracket punctuation. -/
def isWrapPunct (c : Char) : Bool :=
  c.isWhitespace ||
    c = '"' || c = '\x27' || c = '“' || c = '”' || c = '‘' || c = '’' ||
    c = '「' || c = '」' || c = '《' || c = '》' || c = '(' || c = ')' ||
    c = '[' || c = ']' || c = '\x7b' || c = '\x7d' || c = '【' || c = '】'

/-- Embedding of `normalizeTitleWhitespace` (chat-tool-executor.ts line 300):
`value.replace(/\s+/g, ' ').trim()`. -/
def normalizeTitleWhitespace (value : String) : String :=
  String.mk (normChars value.data)

/-- Embedding of `stripWrappingPunctuation` (chat-tool-executor.ts line 293). -/
def stripWrappingPunctuation (value : String) : String :=
  String.mk (dropEnds isWrapPunct value.data)

/-- Default chat title constant `DEFAULT_CHAT_TITLE` (chat-tool-executor.ts line 284). -/
def DEFAULT_CHAT_TITLE : String := "新对话"

/-- Maximum title length constant `MAX_CHAT_TITLE_LENGTH` (chat-tool-executor.ts line 287). -/
def MAX_CHAT_TITLE_LENGTH : Nat := 20

/-- Fallback constant `EMPTY_FALLBACK_TITLE` (chat-tool-executor.ts line 290). -/
def EMPTY_FALLBACK_TITLE : String := "未命名对话"

/-- Character-level core of `sanitizeTitleCandidate` (chat-tool-executor.ts
lines 308-318): normalize whitespace, reject empty, strip wrapping punctuation,
normalize again, reject empty, truncate to `maxLength` code points, trim,
reject empty. -/
def sanitizeChars (raw : List Char) (maxLength : Nat) : Option (List Char) :=
  let normalized := normChars raw
  if normalized = [] then none
  else
    let cleaned := normChars (dropEnds isWrapPunct normalized)
    if cleaned = [] then none
    else
      let truncated := trimWS (cleaned.take maxLength)
      if truncated = [] then none else some truncated

/-- Embedding of `sanitizeTitleCandidate` (chat-tool-executor.ts lines 308-318). -/
def sanitizeTitleCandidate (raw : String) (maxLength : Nat) : Option String :=
  (sanitizeChars raw.data maxLength).map String.mk

/-- Embedding of `deriveFallbackTitle` (chat-tool-executor.ts lines 324-327). -/
def deriveFallbackTitle (userMessage : String) (maxLength : Nat) : String :=
  (sanitizeTitleCandidate userMessage maxLength).getD EMPTY_FALLBACK_TITLE

/-! ### Agent title utilities — agent-title-utils.ts -/

/-- Constant `MAX_AGENT_TITLE_LENGTH` (agent-title-utils.ts line 15). -/
def MAX_AGENT_TITLE_LENGTH : Nat := MAX_CHAT_TITLE_LENGTH

/-- Constant `EMPTY_AGENT_FALLBACK_TITLE` (agent-title-utils.ts line 18). -/
def EMPTY_AGENT_FALLBACK_TITLE : String := "未命名会话"

/-- Embedding of `deriveAgentFallbackTitle` (agent-title-utils.ts lines 24-30). -/
def deriveAgentFallbackTitle (userMessage : String) (maxLength : Nat) : String :=
  (sanitizeTitleCandidate userMessage maxLength).getD EMPTY_AGENT_FALLBACK_TITLE

/-! ### Parsed JSON values

The extractor walks arbitrary parsed JSON, modelled by the inductive `Json`.
A JavaScript `undefined` field access is modelled by `Option Json` results of
`Json.getField`; helpers that in JavaScript tolerate `undefined` take the
default `Json.null`, on which they behave identically (return `null`). -/

/-- Parsed JSON value. -/
inductive Json where
  | null
  | bool (b : Bool)
  | num (n : Int)
  | str (s : String)
  | arr (items : List Json)
  | obj (fields : List (String × Json))

/-- Property access `record[key]`: the first field with the given key, if the
value is an object (`asRecord` succeeds only on non-null non-array objects). -/
def Json.getField : Json → String → Option Json
  | Json.obj fields, key => (fields.find? (fun f => f.1 == key)).map Prod.snd
  | _, _ => none

/-- First element of `asArray(value)` (title-extract.ts line 92): the head when
the value is a nonempty JSON array. -/
def Json.firstItem : Json → Option Json
  | Json.arr (x :: _) => some x
  | _ => none

/-- Embedding of `readString` (title-extract.ts line 96): a string whose trim is
non-empty, returned unmodified; `null` for every other value. -/
def readString : Json → Option String
  | Json.str s => if trimWS s.data = [] then none else some s
  | _ => none

/-- Embedding of `readLastNonEmptyLine` (title-extract.ts lines 100-110): split
on newlines, trim each line, drop empties, take the last, and strip a leading
`"- "` bullet marker (`last.slice(2).trim() || null`). -/
def readLastNonEmptyLine (value : String) : Option String :=
  let lines := ((splitLines value.data).map trimWS).filter (fun l => l ≠ [])
  match lines.getLast? with
  | none => none
  | some last =>
    match last with
    | '-' :: ' ' :: restChars =>
      let t := trimWS restChars
      if t = [] then none else some (String.mk t)
    | _ => some (String.mk last)

/-- Read a string-valued field of an object; an absent field behaves as the
JavaScript `readString(undefined)`, i.e. `null`. -/
def readFieldString (j : Json) (key : String) : Option String :=
  readString ((j.getField key).getD Json.null)

mutual

/-- Embedding of `extractTextFromContentLike` (title-extract.ts lines 116-147):
a trimmed-non-empty string is returned directly; an array is scanned item by
item; every other value yields `null`. -/
def extractTextFromContentLike (content : Json) : Option String :=
  match readString content with
  | some text => some text
  | none =>
    match content with
    | Json.arr items => extractFromItems items
    | _ => none
termination_by sizeOf content
decreasing_by
  all_goals simp

/-- Loop body of `extractTextFromContentLike` over the items of an array
(title-extract.ts lines 120-144): per item, try in order a direct string, the
`text` field, the `output_text` field, the last non-empty line of a `thinking`
field, a nested `content` field, a nested `parts` field; otherwise continue
with the remaining items. -/
def extractFromItems (items : List Json) : Option String :=
  match items with
  | [] => none
  | item :: rest =>
    match readString item with
    | some direct => some direct
    | none =>
      match item with
      | Json.obj fields =>
        match readFieldString (Json.obj fields) "text" with
        | some t => some t
        | none =>
        match readFieldString (Json.obj fields) "output_text" with
        | some t => some t
        | none =>
        match (readFieldString (Json.obj fields) "thinking").bind readLastNonEmptyLine with
        | some t => some t
        | none =>
        match hc : (Json.obj fields).getField "content" with
        | some nestedContent =>
          match extractTextFromContentLike nestedContent with
          | some t => some t
          | none =>
            match hp : (Json.obj fields).getField "parts" with
            | some nestedParts =>
              match extractTextFromContentLike nestedParts with
              | some t => some t
              | none => extractFromItems rest
            | none => extractFromItems rest
        | none =>
          match hp : (Json.obj fields).getField "parts" with
          | some nestedParts =>
            match extractTextFromContentLike nestedParts with
            | some t => some t
            | none => extractFromItems rest
          | none => extractFromItems rest
      | _ => extractFromItems rest
termination_by sizeOf items
decreasing_by
  all_goals simp
  all_goals first
    | omega
    | (simp [Json.getField] at hc
       obtain ⟨k, ha⟩ := hc
       have h1 := List.sizeOf_lt_of_mem (List.mem_of_find?_eq_some ha)
       simp [Prod.mk.sizeOf_spec] at h1
       omega)
    | (simp [Json.getField] at hp
       obtain ⟨k, ha⟩ := hp
       have h1 := List.sizeOf_lt_of_mem (List.mem_of_find?_eq_some ha)
       simp [Prod.mk.sizeOf_spec] at h1
       omega)

end

/-- Application of the content-like extractor to an object field; an absent
field behaves as the JavaScript `extractTextFromContentLike(undefined)`,
i.e. `null`. -/
def extractFieldContentLike (j : Json) (key : String) : Option String :=
  extractTextFromContentLike ((j.getField key).getD Json.null)

/-- Step `message.content` of the choices block (title-extract.ts lines
169-173): when `choice.message` is an object, its `content` field through the
content-like extractor. -/
def choiceMessagePart (choice : Json) : Option String :=
  match choice.getField "message" with
  | some (Json.obj mf) => extractFieldContentLike (Json.obj mf) "content"
  | _ => none

/-- Step `delta.content` of the choices block (title-extract.ts lines
178-182): when `choice.delta` is an object, its string `content` field. -/
def choiceDeltaPart (choice : Json) : Option String :=
  match choice.getField "delta" with
  | some (Json.obj df) => readFieldString (Json.obj df) "content"
  | _ => none

/-- OpenAI Chat Completions block of `extractTitleFromCommonResponse`
(title-extract.ts lines 164-184): on the first element of `choices`, when it is
an object, try `message.content` through the content-like extractor, then the
`text` field, then `delta.content`. -/
def titleFromChoices (root : Json) : Option String :=
  match ((root.getField "choices").getD Json.null).firstItem with
  | some (Json.obj cf) =>
    match choiceMessagePart (Json.obj cf) with
    | some t => some t
    | none =>
      match readFieldString (Json.obj cf) "text" with
      | some t => some t
      | none => choiceDeltaPart (Json.obj cf)
  | _ => none

/-- Step `content.parts` of the candidates block (title-extract.ts lines
195-199): when `candidate.content` is an object, its `parts` field through the
content-like extractor. -/
def candidateContentParts (candidate : Json) : Option String :=
  match candidate.getField "content" with
  | some (Json.obj ccf) => extractFieldContentLike (Json.obj ccf) "parts"
  | _ => none

/-- Google Gemini block of `extractTitleFromCommonResponse` (title-extract.ts
lines 190-204): on the first element of `candidates`, when it is an object, try
`content.parts` through the content-like extractor, then the `text` field. -/
def titleFromCandidates (root : Json) : Option String :=
  match ((root.getField "candidates").getD Json.null).firstItem with
  | some (Json.obj cf) =>
    match candidateContentParts (Json.obj cf) with
    | some t => some t
    | none => extractFieldContentLike (Json.obj cf) "text"
  | _ => none

/-- Embedding of `extractTitleFromCommonResponse` (title-extract.ts lines
153-212): a direct string, then for an object `output_text`, the OpenAI
choices block, the Anthropic `content` field, the Gemini candidates block, and
finally the whole extractor again on a wrapped `data` field; `null` for every
other value. -/
def extractTitleFromCommonResponse (responseBody : Json) : Option String :=
  match readString responseBody with
  | some direct => some direct
  | none =>
    match responseBody with
    | Json.obj fields =>
      match readFieldString (Json.obj fields) "output_text" with
      | some t => some t
      | none =>
      match titleFromChoices (Json.obj fields) with
      | some t => some t
      | none =>
      match extractFieldContentLike (Json.obj fields) "content" with
      | some t => some t
      | none =>
      match titleFromCandidates (Json.obj fields) with
      | some t => some t
      | none =>
      match hdata : (Json.obj fields).getField "data" with
      | some wrapped => extractTitleFromCommonResponse wrapped
      | none => none
    | _ => none
termination_by sizeOf responseBody
decreasing_by
  simp
  simp [Json.getField] at hdata
  obtain ⟨k, ha⟩ := hdata
  have h1 := List.sizeOf_lt_of_mem (List.mem_of_find?_eq_some ha)
  simp [Prod.mk.sizeOf_spec] at h1
  omega

/-- Gateway-wrapped payload block of `extractTitleFromCommonResponse`
(title-extract.ts lines 207-209): the whole extractor applied to the `data`
field when present. -/
def wrappedDataPart (root : Json) : Option String :=
  match root.getField "data" with
  | some wrapped => extractTitleFromCommonResponse wrapped
  | none => none

/-! ### Anthropic title request — spec §6 and §4.2

The adapter implementations under `packages/core/src/providers/` are not part
of the snapshot; only their tests are. The title-request body is therefore
modelled from the specification. -/

/-- Top-level keys of a JSON object, in order. -/
def Json.topKeys : Json → List String
  | Json.obj fields => fields.map Prod.fst
  | _ => []

mutual

/-- Whether the given key occurs as an object key anywhere in the JSON tree. -/
def Json.hasKeyDeep : Json → String → Bool
  | Json.obj fields, key => hasKeyDeepFields fields key
  | Json.arr items, key => hasKeyDeepItems items key
  | _, _ => false
termination_by j _ => sizeOf j

/-- Deep key search over the fields of an object. -/
def hasKeyDeepFields : List (String × Json) → String → Bool
  | [], _ => false
  | (k, v) :: rest, key => k == key || Json.hasKeyDeep v key || hasKeyDeepFields rest key
termination_by fields _ => sizeOf fields

/-- Deep key search over the items of an array. -/
def hasKeyDeepItems : List Json → String → Bool
  | [], _ => false
  | j :: rest, key => Json.hasKeyDeep j key || hasKeyDeepItems rest key
termination_by items _ => sizeOf items

end

/-- Inputs of a title-generation request (spec §3, `TitleRequestInput`). -/
structure TitleRequestInput where
  baseUrl : String
  apiKey : String
  modelId : String
  prompt : String

/-- Modelled from the spec: the source of `AnthropicAdapter.buildTitleRequest`
(providers/anthropic-adapter.ts) is not in the snapshot. Spec §6 fixes the
Anthropic-style title request body to
`{ model, max_tokens: 50, messages: [{ role: user, content: <prompt> }] }`
with explicitly no `thinking` key; the serialized body is modelled by the JSON
value it parses to. -/
def AnthropicAdapter.buildTitleRequestBody (input : TitleRequestInput) : Json :=
  Json.obj
    [("model", Json.str input.modelId),
     ("max_tokens", Json.num 50),
     ("messages", Json.arr
       [Json.obj [("role", Json.str "user"), ("content", Json.str input.prompt)]])]

/-! ### Title fetcher with diagnostics — spec §4.4

The source of `fetchTitleWithDiagnostics` (providers/sse-reader.ts) is not in
the snapshot; only its test file is. The fetcher is modelled from the
specification, steps 1-7 of §4.4. -/

/-- Failure taxonomy of a title fetch (spec §3, `TitleFailureReason`). -/
inductive TitleFailureReason where
  | success
  | http_non_200
  | empty_content
  | parse_failed
  | network_error
deriving DecidableEq, Repr

/-- Result value of a title fetch (spec §3, `TitleFetchResult`). -/
structure TitleFetchResult where
  title : Option String
  reason : TitleFailureReason
  status : Option Nat
  dataPreview : Option String
deriving DecidableEq, Repr

/-- Provider request value object (spec §3, `ProviderRequest`). -/
structure ProviderRequest where
  url : String
  headers : List (String × String)
  body : String

/-- An HTTP response as seen by the fetcher: the status code, the body as text
and, when the text parses as JSON, the parsed value (spec §4.4 step 4 tolerates
parse failure by using the raw text instead). -/
structure HttpResponse where
  status : Nat
  bodyText : String
  bodyJson : Option Json

/-- Outcome of the injected transport function: it either throws or produces a
response (spec §4.4 steps 1-2). -/
inductive TransportOutcome where
  | threw
  | responded (response : HttpResponse)

/-- The slice of the provider adapter contract the title fetcher consumes
(spec §4.2): the provider-specific fast-path title parser. -/
structure ProviderAdapter where
  parseTitleResponse : Json → Option String

/-- A 2xx HTTP status. -/
def is2xx (status : Nat) : Bool :=
  200 ≤ status && status < 300

/-- Whether a content-like value is structurally recognized (a string or an
array of blocks), regardless of whether text was extracted from it. -/
def contentLikeRecognized : Json → Bool
  | Json.str _ => true
  | Json.arr _ => true
  | _ => false

/-- Modelled from the spec: §4.4 step 7 and the design note of §9 require the
extraction logic to track whether any recognized-shape branch was entered even
when it yielded no text; the tracking implementation is not in the snapshot.
A response body is recognized when it is itself a string, or an object with a
string `output_text`, an object first element of `choices`, a content-like
`content`, an object first element of `candidates`, or a recursively
recognized `data` field. -/
def commonResponseShapeRecognized : Json → Bool
  | Json.str _ => true
  | Json.obj fields =>
    (match (Json.obj fields).getField "output_text" with
     | some (Json.str _) => true
     | _ => false)
    || (match ((Json.obj fields).getField "choices").getD Json.null |>.firstItem with
        | some (Json.obj _) => true
        | _ => false)
    || (match (Json.obj fields).getField "content" with
        | some c => contentLikeRecognized c
        | none => false)
    || (match ((Json.obj fields).getField "candidates").getD Json.null |>.firstItem with
        | some (Json.obj _) => true
        | _ => false)
    || (match hdata : (Json.obj fields).getField "data" with
        | some wrapped => commonResponseShapeRecognized wrapped
        | none => false)
  | _ => false
termination_by j => sizeOf j
decreasing_by
  simp
  simp [Json.getField] at hdata
  obtain ⟨k, ha⟩ := hdata
  have h1 := List.sizeOf_lt_of_mem (List.mem_of_find?_eq_some ha)
  simp [Prod.mk.sizeOf_spec] at h1
  omega

/-- Modelled from the spec: the source of `fetchTitleWithDiagnostics`
(providers/sse-reader.ts) is not in the snapshot. Algorithm of §4.4:
a transport throw yields `network_error`; a non-2xx status yields
`http_non_200` with the status and a 500-character body preview; otherwise the
body (parsed JSON, or the raw text when parsing failed) goes through the
adapter fast path and then the generic extractor, a non-empty result being a
success; with no text extracted, a structurally recognized body yields
`empty_content` and an unrecognized one `parse_failed`. -/
def fetchTitleWithDiagnostics (request : ProviderRequest) (adapter : ProviderAdapter)
    (fetchFn : ProviderRequest → TransportOutcome) : TitleFetchResult :=
  match fetchFn request with
  | TransportOutcome.threw =>
    ⟨none, TitleFailureReason.network_error, none, none⟩
  | TransportOutcome.responded r =>
    if is2xx r.status then
      let body := r.bodyJson.getD (Json.str r.bodyText)
      let adapterTitle := (adapter.parseTitleResponse body).bind
        (fun t => if trimWS t.data = [] then none else some t)
      match adapterTitle with
      | some t => ⟨some t, TitleFailureReason.success, some r.status, none⟩
      | none =>
        match extractTitleFromCommonResponse body with
        | some t => ⟨some t, TitleFailureReason.success, some r.status, none⟩
        | none =>
          if commonResponseShapeRecognized body then
            ⟨none, TitleFailureReason.empty_content, some r.status, none⟩
          else
            ⟨none, TitleFailureReason.parse_failed, some r.status, none⟩
    else
      ⟨none, TitleFailureReason.http_non_200, some r.status,
        some (String.mk (r.bodyText.data.take 500))⟩

/-! ### SSE reader — spec §4.3 and §7

The source of the SSE reader (providers/sse-reader.ts) is not in the snapshot.
The reader is modelled from the specification as a function from the sequence
of decoded `data:` payload lines of one stream to the sequence of events it
forwards, the active adapter line parser being injected. -/

/-- Normalized stream event (spec §3, `StreamEvent`). -/
inductive StreamEvent where
  | text_delta (text : String)
  | thinking_delta (text : String)
  | tool_call (id : String) (name : String) (arguments : String)
  | usage_update (inputTokens : Nat)
  | complete (inputTokens : Nat) (outputTokens : Nat)
  | error (message : String)
deriving DecidableEq, Repr

/-- Terminal events, after which no further events are expected (spec §3). -/
def StreamEvent.isTerminal : StreamEvent → Bool
  | StreamEvent.complete _ _ => true
  | StreamEvent.error _ => true
  | _ => false

/-- Message of the synthetic error emitted on unexpected stream closure. -/
def streamClosedMessage : String := "stream ended before a terminal event"

/-- Forward events in order up to and including the first terminal one; the
flag reports whether a terminal event was hit. -/
def emitUntilTerminal : List StreamEvent → List StreamEvent × Bool
  | [] => ([], false)
  | e :: rest =>
    if e.isTerminal then ([e], true)
    else
      let r := emitUntilTerminal rest
      (e :: r.1, r.2)

/-- Modelled from the spec: §4.3 requires the SSE reader to forward the events
produced per payload line in emission order, to stop at the first terminal
event, and to emit a synthetic `error` event when the underlying stream ends
without ever producing a terminal event; §7 makes `error` terminal. -/
def readStreamEvents (parseLine : String → List StreamEvent) :
    List String → List StreamEvent
  | [] => [StreamEvent.error streamClosedMessage]
  | line :: rest =>
    let r := emitUntilTerminal (parseLine line)
    if r.2 then r.1 else r.1 ++ readStreamEvents parseLine rest

/-! ## Theorems -/

/-! ### Shared helper lemmas -/

theorem length_dropWhile_le (p : Char → Bool) (l : List Char) :
    (l.dropWhile p).length ≤ l.length := by
  induction l with
  | nil => simp
  | cons c rest ih =>
    by_cases h : p c
    · simp [List.dropWhile, h]; omega
    · simp [List.dropWhile, h]

theorem dropEnds_length_le (p : Char → Bool) (cs : List Char) :
    (dropEnds p cs).length ≤ cs.length := by
  unfold dropEnds
  have h1 := length_dropWhile_le p cs
  have h2 := length_dropWhile_le p (cs.dropWhile p).reverse
  simp at h2 ⊢
  omega

theorem trimWS_length_le (cs : List Char) : (trimWS cs).length ≤ cs.length :=
  dropEnds_length_le Char.isWhitespace cs

theorem wsWords_eq_nil_of_all_ws {cs : List Char}
    (h : ∀ c ∈ cs, c.isWhitespace = true) : wsWords cs = [] := by
  induction cs with
  | nil => rfl
  | cons c rest ih =>
    have hc : c.isWhitespace = true := h c (List.mem_cons_self c rest)
    rw [wsWords, if_pos hc]
    exact ih (fun x hx => h x (List.mem_cons_of_mem c hx))

theorem normChars_eq_nil_of_all_ws {cs : List Char}
    (h : ∀ c ∈ cs, c.isWhitespace = true) : normChars cs = [] := by
  simp [normChars, wsWords_eq_nil_of_all_ws h, List.intercalate]

theorem sanitizeChars_some_spec {raw : List Char} {n : Nat} {out : List Char}
    (h : sanitizeChars raw n = some out) : out ≠ [] ∧ out.length ≤ n := by
  simp only [sanitizeChars] at h
  split_ifs at h with h1 h2 h3
  simp_all
  subst h
  exact le_trans (trimWS_length_le _) (List.length_take_le n _)

theorem stringMk_ne_empty {l : List Char} (h : l ≠ []) : String.mk l ≠ "" := by
  intro hcon
  exact h (congrArg String.data hcon)

/-! ### Claim theorems -/

/-- C1: `decideTitleTrigger` evaluates its rules in strict priority order and
returns the first match: `skipAutoTitle` wins over everything with reason
`skip_auto_title_option`; then a non-zero `messageCountBeforeSend` gives
`not_first_message`; then a whitespace-only `content` gives
`empty_user_message`; then `alreadyTriggered` gives
`duplicate_first_turn_guard`; otherwise the decision is to queue with reason
`should_queue`; and `shouldQueue` is true exactly when the reason is
`should_queue`. -/
theorem decideTitleTrigger_priority (input : TitleTriggerInput) :
    (input.skipAutoTitle = true →
      decideTitleTrigger input = ⟨false, TriggerReason.skip_auto_title_option⟩)
    ∧ (input.skipAutoTitle = false → input.messageCountBeforeSend ≠ 0 →
      decideTitleTrigger input = ⟨false, TriggerReason.not_first_message⟩)
    ∧ (input.skipAutoTitle = false → input.messageCountBeforeSend = 0 →
        trimWS input.content.data = [] →
      decideTitleTrigger input = ⟨false, TriggerReason.empty_user_message⟩)
    ∧ (input.skipAutoTitle = false → input.messageCountBeforeSend = 0 →
        trimWS input.content.data ≠ [] → input.alreadyTriggered = true →
      decideTitleTrigger input = ⟨false, TriggerReason.duplicate_first_turn_guard⟩)
    ∧ (input.skipAutoTitle = false → input.messageCountBeforeSend = 0 →
        trimWS input.content.data ≠ [] → input.alreadyTriggered = false →
      decideTitleTrigger input = ⟨true, TriggerReason.should_queue⟩)
    ∧ ((decideTitleTrigger input).shouldQueue = true ↔
        (decideTitleTrigger input).reason = TriggerReason.should_queue) := by
  obtain ⟨skip, count, content, already⟩ := input
  cases skip <;> cases already <;>
    by_cases hc : count = (0 : Int) <;>
    by_cases ht : trimWS content.data = [] <;>
    simp_all [decideTitleTrigger]

/-- Witness for C1 at a concrete input: the first rule wins even though the
content is empty. -/
theorem decideTitleTrigger_priority_witness :
    decideTitleTrigger ⟨true, 0, "", false⟩ =
      ⟨false, TriggerReason.skip_auto_title_option⟩ :=
  (decideTitleTrigger_priority ⟨true, 0, "", false⟩).1 rfl

/-- C9: with the default maximum length, `deriveFallbackTitle` always returns
a non-empty string of at most `MAX_CHAT_TITLE_LENGTH = 20` characters; it
returns the sanitized candidate whenever `sanitizeTitleCandidate` is non-null
and the constant `未命名对话` otherwise, and in particular on every
whitespace-only input. Determinism holds because the embedding is a pure
function of the input string. -/
theorem deriveFallbackTitle_spec (s : String) :
    deriveFallbackTitle s MAX_CHAT_TITLE_LENGTH ≠ ""
    ∧ (deriveFallbackTitle s MAX_CHAT_TITLE_LENGTH).length ≤ MAX_CHAT_TITLE_LENGTH
    ∧ (∀ t, sanitizeTitleCandidate s MAX_CHAT_TITLE_LENGTH = some t →
        deriveFallbackTitle s MAX_CHAT_TITLE_LENGTH = t)
    ∧ (sanitizeTitleCandidate s MAX_CHAT_TITLE_LENGTH = none →
        deriveFallbackTitle s MAX_CHAT_TITLE_LENGTH = EMPTY_FALLBACK_TITLE)
    ∧ ((∀ c ∈ s.data, c.isWhitespace = true) →
        deriveFallbackTitle s MAX_CHAT_TITLE_LENGTH = EMPTY_FALLBACK_TITLE) := by
  cases hs : sanitizeChars s.data MAX_CHAT_TITLE_LENGTH with
  | none =>
    have hd : deriveFallbackTitle s MAX_CHAT_TITLE_LENGTH = EMPTY_FALLBACK_TITLE := by
      simp [deriveFallbackTitle, sanitizeTitleCandidate, hs]
    refine ⟨?_, ?_, ?_, ?_, ?_⟩
    · rw [hd]; decide
    · rw [hd]; decide
    · intro t ht; simp [sanitizeTitleCandidate, hs] at ht
    · intro _; exact hd
    · intro _; exact hd
  | some out =>
    obtain ⟨hne, hlen⟩ := sanitizeChars_some_spec hs
    have hd : deriveFallbackTitle s MAX_CHAT_TITLE_LENGTH = String.mk out := by
      simp [deriveFallbackTitle, sanitizeTitleCandidate, hs]
    refine ⟨?_, ?_, ?_, ?_, ?_⟩
    · rw [hd]; exact stringMk_ne_empty hne
    · rw [hd]; exact hlen
    · intro t ht
      simp [sanitizeTitleCandidate, hs] at ht
      rw [hd, ht]
    · intro hnone; simp [sanitizeTitleCandidate, hs] at hnone
    · intro hws
      exfalso
      have hnorm : normChars s.data = [] := normChars_eq_nil_of_all_ws hws
      simp [sanitizeChars, hnorm] at hs

/-- Witness for C9 at a concrete input: whitespace collapsing and the
non-null sanitizer branch. -/
theorem deriveFallbackTitle_spec_witness :
    sanitizeTitleCandidate "  hello   world  " MAX_CHAT_TITLE_LENGTH = some "hello world"
    ∧ deriveFallbackTitle "  hello   world  " MAX_CHAT_TITLE_LENGTH = "hello world" :=
  ⟨by decide,
   (deriveFallbackTitle_spec "  hello   world  ").2.2.1 "hello world" (by decide)⟩

/-- C10: `deriveAgentFallbackTitle` and `deriveFallbackTitle` share the
sanitizer and the maximum length `MAX_AGENT_TITLE_LENGTH =
MAX_CHAT_TITLE_LENGTH = 20`; whenever the sanitizer returns a non-null
candidate they agree, and exactly on the inputs where it returns null they
differ, returning the distinct constants `未命名会话` and `未命名对话`. -/
theorem deriveAgentFallbackTitle_vs_chat (s : String) :
    MAX_AGENT_TITLE_LENGTH = MAX_CHAT_TITLE_LENGTH
    ∧ MAX_CHAT_TITLE_LENGTH = 20
    ∧ (∀ t, sanitizeTitleCandidate s MAX_AGENT_TITLE_LENGTH = some t →
        deriveAgentFallbackTitle s MAX_AGENT_TITLE_LENGTH =
          deriveFallbackTitle s MAX_CHAT_TITLE_LENGTH)
    ∧ (sanitizeTitleCandidate s MAX_AGENT_TITLE_LENGTH = none →
        deriveAgentFallbackTitle s MAX_AGENT_TITLE_LENGTH = EMPTY_AGENT_FALLBACK_TITLE
        ∧ deriveFallbackTitle s MAX_CHAT_TITLE_LENGTH = EMPTY_FALLBACK_TITLE
        ∧ deriveAgentFallbackTitle s MAX_AGENT_TITLE_LENGTH ≠
            deriveFallbackTitle s MAX_CHAT_TITLE_LENGTH) := by
  refine ⟨rfl, rfl, ?_, ?_⟩
  · intro t ht
    simp [deriveAgentFallbackTitle, deriveFallbackTitle, MAX_AGENT_TITLE_LENGTH] at ht ⊢
    rw [ht]
    simp
  · intro hnone
    simp [deriveAgentFallbackTitle, deriveFallbackTitle, MAX_AGENT_TITLE_LENGTH] at hnone ⊢
    rw [hnone]
    refine ⟨rfl, rfl, ?_⟩
    decide

/-- Witness for C10 at a concrete whitespace-only input: the sanitizer returns
null and the two fallbacks differ. -/
theorem deriveAgentFallbackTitle_vs_chat_witness :
    sanitizeTitleCandidate "   " MAX_AGENT_TITLE_LENGTH = none
    ∧ deriveAgentFallbackTitle "   " MAX_AGENT_TITLE_LENGTH ≠
        deriveFallbackTitle "   " MAX_CHAT_TITLE_LENGTH :=
  ⟨by decide, ((deriveAgentFallbackTitle_vs_chat "   ").2.2.2 (by decide)).2.2⟩

/-- C2: `extractTitleFromCommonResponse` is total (it never throws) and tries
the recognized provider shapes in a fixed priority order, returning the first
non-empty string found: a direct non-empty string; otherwise, on an object,
`output_text`, then the choices block (`choices[0].message.content`, then
`choices[0].text`, then `choices[0].delta.content`), then `content` through
the content-like extractor, then the candidates block
(`candidates[0].content.parts`, then `candidates[0].text`), then recursively
the wrapped `data` field; every other value, including `null` and
`{foo:{bar:1}}`, yields `null`. -/
theorem extractTitle_shape_priority :
    (∀ s, extractTitleFromCommonResponse (Json.str s) = readString (Json.str s))
    ∧ (∀ fields, extractTitleFromCommonResponse (Json.obj fields) =
        ((((readFieldString (Json.obj fields) "output_text").or
            (titleFromChoices (Json.obj fields))).or
            (extractFieldContentLike (Json.obj fields) "content")).or
            (titleFromCandidates (Json.obj fields))).or
            (wrappedDataPart (Json.obj fields)))
    ∧ extractTitleFromCommonResponse Json.null = none
    ∧ (∀ b, extractTitleFromCommonResponse (Json.bool b) = none)
    ∧ (∀ n, extractTitleFromCommonResponse (Json.num n) = none)
    ∧ (∀ items, extractTitleFromCommonResponse (Json.arr items) = none)
    ∧ extractTitleFromCommonResponse
        (Json.obj [("foo", Json.obj [("bar", Json.num 1)])]) = none
    ∧ (∀ root cf,
        ((root.getField "choices").getD Json.null).firstItem = some (Json.obj cf) →
        titleFromChoices root =
          ((choiceMessagePart (Json.obj cf)).or
            (readFieldString (Json.obj cf) "text")).or
            (choiceDeltaPart (Json.obj cf)))
    ∧ (∀ root cf,
        ((root.getField "candidates").getD Json.null).firstItem = some (Json.obj cf) →
        titleFromCandidates root =
          (candidateContentParts (Json.obj cf)).or
            (extractFieldContentLike (Json.obj cf) "text")) := by
  refine ⟨?_, ?_, ?_, ?_, ?_, ?_, ?_, ?_, ?_⟩
  · intro s
    cases h : readString (Json.str s) <;>
      simp [extractTitleFromCommonResponse, h]
  · intro fields
    rw [extractTitleFromCommonResponse]
    simp only [readString]
    cases h1 : readFieldString (Json.obj fields) "output_text" <;>
      cases h2 : titleFromChoices (Json.obj fields) <;>
      cases h3 : extractFieldContentLike (Json.obj fields) "content" <;>
      cases h4 : titleFromCandidates (Json.obj fields) <;>
      cases h5 : (Json.obj fields).getField "data" <;>
      simp [h1, h2, h3, h4, h5, wrappedDataPart, Option.or]
  · simp [extractTitleFromCommonResponse, readString]
  · intro b; simp [extractTitleFromCommonResponse, readString]
  · intro n; simp [extractTitleFromCommonResponse, readString]
  · intro items; simp [extractTitleFromCommonResponse, readString]
  · simp +decide [extractTitleFromCommonResponse, titleFromChoices, titleFromCandidates,
      choiceMessagePart, choiceDeltaPart, candidateContentParts, extractFieldContentLike,
      extractTextFromContentLike, readFieldString, readString, Json.getField,
      Json.firstItem, List.find?]
  · intro root cf h
    simp only [titleFromChoices, h]
    cases hm : choiceMessagePart (Json.obj cf) <;>
      cases ht : readFieldString (Json.obj cf) "text" <;>
      simp [hm, ht, Option.or]
  · intro root cf h
    simp only [titleFromCandidates, h]
    cases hp : candidateContentParts (Json.obj cf) <;>
      simp [hp, Option.or]

/-- Witness for C2 at a concrete response: the choices block falls through
`message.content` and `text` to `delta.content`. -/
theorem extractTitle_shape_priority_witness :
    titleFromChoices (Json.obj [("choices", Json.arr
      [Json.obj [("delta", Json.obj [("content", Json.str "D")])]])]) = some "D" := by
  have h := extractTitle_shape_priority.2.2.2.2.2.2.2.1
    (Json.obj [("choices", Json.arr
      [Json.obj [("delta", Json.obj [("content", Json.str "D")])]])])
    [("delta", Json.obj [("content", Json.str "D")])] rfl
  rw [h]
  simp +decide [choiceMessagePart, choiceDeltaPart, readFieldString, readString,
    Json.getField, List.find?, Option.or]

/-- C3: on an Anthropic thinking block, title extraction returns exactly what
`readLastNonEmptyLine` computes on the `thinking` text — the last non-empty
line with a leading bullet marker stripped; on the block
`"step1\n- Thinking title"` the result is `"Thinking title"`, not the full
block and not the first line. -/
theorem thinking_block_last_line (s : String) :
    (trimWS s.data ≠ [] →
      extractTitleFromCommonResponse (Json.obj [("content", Json.arr
        [Json.obj [("type", Json.str "thinking"), ("thinking", Json.str s)]])])
        = readLastNonEmptyLine s)
    ∧ extractTitleFromCommonResponse (Json.obj [("content", Json.arr
        [Json.obj [("type", Json.str "thinking"),
                   ("thinking", Json.str "step1\n- Thinking title")]])])
        = some "Thinking title" := by
  constructor
  · intro h
    cases hr : readLastNonEmptyLine s <;>
      simp +decide [extractTitleFromCommonResponse, titleFromChoices, titleFromCandidates,
        choiceMessagePart, choiceDeltaPart, candidateContentParts, extractFieldContentLike,
        extractTextFromContentLike, extractFromItems, readFieldString, readString,
        Json.getField, Json.firstItem, List.find?, h, hr]
  · simp +decide [extractTitleFromCommonResponse, titleFromChoices, titleFromCandidates,
      choiceMessagePart, choiceDeltaPart, candidateContentParts, extractFieldContentLike,
      extractTextFromContentLike, extractFromItems, readFieldString, readString,
      readLastNonEmptyLine, splitLines, trimWS, dropEnds, Json.getField,
      Json.firstItem, List.find?]

/-- Witness for C3 at the concrete thinking block of the test table. -/
theorem thinking_block_last_line_witness :
    extractTitleFromCommonResponse (Json.obj [("content", Json.arr
      [Json.obj [("type", Json.str "thinking"),
                 ("thinking", Json.str "step1\n- Thinking title")]])])
      = readLastNonEmptyLine "step1\n- Thinking title" :=
  (thinking_block_last_line "step1\n- Thinking title").1 (by decide)

/-- C4: for every input, the Anthropic title request body is exactly
`{ model: <modelId>, max_tokens: 50, messages: [{ role: user,
content: <prompt> }] }` — those three top-level keys and values — and no
`thinking` key occurs anywhere in the body, regardless of the model id. -/
theorem anthropic_title_body_spec (input : TitleRequestInput) :
    (AnthropicAdapter.buildTitleRequestBody input).topKeys
        = ["model", "max_tokens", "messages"]
    ∧ (AnthropicAdapter.buildTitleRequestBody input).getField "model"
        = some (Json.str input.modelId)
    ∧ (AnthropicAdapter.buildTitleRequestBody input).getField "max_tokens"
        = some (Json.num 50)
    ∧ (AnthropicAdapter.buildTitleRequestBody input).getField "messages"
        = some (Json.arr
            [Json.obj [("role", Json.str "user"), ("content", Json.str input.prompt)]])
    ∧ (AnthropicAdapter.buildTitleRequestBody input).hasKeyDeep "thinking" = false := by
  refine ⟨rfl, ?_, ?_, ?_, ?_⟩
  · simp +decide [AnthropicAdapter.buildTitleRequestBody, Json.getField, List.find?]
  · simp +decide [AnthropicAdapter.buildTitleRequestBody, Json.getField, List.find?]
  · simp +decide [AnthropicAdapter.buildTitleRequestBody, Json.getField, List.find?]
  · simp +decide [AnthropicAdapter.buildTitleRequestBody, Json.hasKeyDeep,
      hasKeyDeepFields, hasKeyDeepItems]

/-- C5: for every request, adapter and injected transport function, the title
of the fetch result is non-null exactly when the reason is `success`. -/
theorem fetchTitle_success_iff (request : ProviderRequest) (adapter : ProviderAdapter)
    (fetchFn : ProviderRequest → TransportOutcome) :
    (fetchTitleWithDiagnostics request adapter fetchFn).title ≠ none ↔
      (fetchTitleWithDiagnostics request adapter fetchFn).reason
        = TitleFailureReason.success := by
  simp only [fetchTitleWithDiagnostics]
  repeat' split
  all_goals simp

/-- C6: on a 2xx response whose adapter fast path yields no usable text and on
which the generic extractor finds nothing, the fetch result distinguishes a
structurally recognized body (reason `empty_content`) from an unrecognized one
(reason `parse_failed`). -/
theorem fetchTitle_empty_vs_parse (request : ProviderRequest) (adapter : ProviderAdapter)
    (fetchFn : ProviderRequest → TransportOutcome) (r : HttpResponse)
    (hresp : fetchFn request = TransportOutcome.responded r)
    (h2xx : is2xx r.status = true)
    (hadapter : ∀ t,
      adapter.parseTitleResponse (r.bodyJson.getD (Json.str r.bodyText)) = some t →
      trimWS t.data = [])
    (hextract :
      extractTitleFromCommonResponse (r.bodyJson.getD (Json.str r.bodyText)) = none) :
    (commonResponseShapeRecognized (r.bodyJson.getD (Json.str r.bodyText)) = true →
      (fetchTitleWithDiagnostics request adapter fetchFn).reason
        = TitleFailureReason.empty_content)
    ∧ (commonResponseShapeRecognized (r.bodyJson.getD (Json.str r.bodyText)) = false →
      (fetchTitleWithDiagnostics request adapter fetchFn).reason
        = TitleFailureReason.parse_failed) := by
  have hA : (adapter.parseTitleResponse (r.bodyJson.getD (Json.str r.bodyText))).bind
      (fun t => if trimWS t.data = [] then none else some t) = none := by
    cases hp : adapter.parseTitleResponse (r.bodyJson.getD (Json.str r.bodyText)) with
    | none => rfl
    | some t => simp [hadapter t hp]
  constructor <;> intro hrec <;>
    simp [fetchTitleWithDiagnostics, hresp, h2xx, hA, hextract, hrec]

/-- Witness for C6 at the two concrete bodies of the test file: a recognized
but empty `content` array versus a fully unrecognized object. -/
theorem fetchTitle_empty_vs_parse_witness :
    (fetchTitleWithDiagnostics ⟨"https://example.com/title", [], "\x7b\x7d"⟩
      ⟨fun _ => none⟩
      (fun _ => TransportOutcome.responded
        ⟨200, "\x7b\x22content\x22:[]\x7d", some (Json.obj [("content", Json.arr [])])⟩)).reason
      = TitleFailureReason.empty_content
    ∧ (fetchTitleWithDiagnostics ⟨"https://example.com/title", [], "\x7b\x7d"⟩
      ⟨fun _ => none⟩
      (fun _ => TransportOutcome.responded
        ⟨200, "\x7b\x22foo\x22:\x7b\x22bar\x22:1\x7d\x7d",
          some (Json.obj [("foo", Json.obj [("bar", Json.num 1)])])⟩)).reason
      = TitleFailureReason.parse_failed := by
  constructor
  · refine (fetchTitle_empty_vs_parse ⟨"https://example.com/title", [], "\x7b\x7d"⟩
      ⟨fun _ => none⟩ _
      ⟨200, "\x7b\x22content\x22:[]\x7d", some (Json.obj [("content", Json.arr [])])⟩
      rfl rfl ?_ ?_).1 ?_
    · intro t h; exact Option.noConfusion h
    · simp +decide [extractTitleFromCommonResponse, titleFromChoices, titleFromCandidates,
        choiceMessagePart, choiceDeltaPart, candidateContentParts, extractFieldContentLike,
        extractTextFromContentLike, extractFromItems, readFieldString, readString,
        Json.getField, Json.firstItem, List.find?]
    · simp +decide [commonResponseShapeRecognized, contentLikeRecognized,
        Json.getField, Json.firstItem, List.find?]
  · refine (fetchTitle_empty_vs_parse ⟨"https://example.com/title", [], "\x7b\x7d"⟩
      ⟨fun _ => none⟩ _
      ⟨200, "\x7b\x22foo\x22:\x7b\x22bar\x22:1\x7d\x7d",
        some (Json.obj [("foo", Json.obj [("bar", Json.num 1)])])⟩
      rfl rfl ?_ ?_).2 ?_
    · intro t h; exact Option.noConfusion h
    · simp +decide [extractTitleFromCommonResponse, titleFromChoices, titleFromCandidates,
        choiceMessagePart, choiceDeltaPart, candidateContentParts, extractFieldContentLike,
        extractTextFromContentLike, extractFromItems, readFieldString, readString,
        Json.getField, Json.firstItem, List.find?]
    · simp +decide [commonResponseShapeRecognized, contentLikeRecognized,
        Json.getField, Json.firstItem, List.find?]

/-- C7: a transport throw yields exactly
`{ title: null, reason: network_error, status: null, dataPreview: null }`,
and a non-2xx response yields title null, reason `http_non_200`, that status,
and the first 500 characters of the body text as preview — failures are
reported as data, never thrown (the fetcher is a total function). -/
theorem fetchTitle_transport_failures (request : ProviderRequest)
    (adapter : ProviderAdapter) (fetchFn : ProviderRequest → TransportOutcome) :
    (fetchFn request = TransportOutcome.threw →
      fetchTitleWithDiagnostics request adapter fetchFn =
        ⟨none, TitleFailureReason.network_error, none, none⟩)
    ∧ (∀ r, fetchFn request = TransportOutcome.responded r → is2xx r.status = false →
      fetchTitleWithDiagnostics request adapter fetchFn =
        ⟨none, TitleFailureReason.http_non_200, some r.status,
          some (String.mk (r.bodyText.data.take 500))⟩) := by
  constructor
  · intro h; simp [fetchTitleWithDiagnostics, h]
  · intro r h h2; simp [fetchTitleWithDiagnostics, h, h2]

/-- Witness for C7 at a throwing transport and at a 400 response. -/
theorem fetchTitle_transport_failures_witness :
    fetchTitleWithDiagnostics ⟨"https://example.com/title", [], "\x7b\x7d"⟩
        ⟨fun _ => none⟩ (fun _ => TransportOutcome.threw)
      = ⟨none, TitleFailureReason.network_error, none, none⟩
    ∧ fetchTitleWithDiagnostics ⟨"https://example.com/title", [], "\x7b\x7d"⟩
        ⟨fun _ => none⟩
        (fun _ => TransportOutcome.responded ⟨400, "bad request", none⟩)
      = ⟨none, TitleFailureReason.http_non_200, some 400, some "bad request"⟩ := by
  constructor
  · exact (fetchTitle_transport_failures _ _ _).1 rfl
  · have h := (fetchTitle_transport_failures
      (⟨"https://example.com/title", [], "\x7b\x7d"⟩ : ProviderRequest)
      (⟨fun _ => none⟩ : ProviderAdapter)
      (fun _ => TransportOutcome.responded ⟨400, "bad request", none⟩)).2
      ⟨400, "bad request", none⟩ rfl (by decide)
    rw [h]
    decide

/-! ### Lemmas on the SSE reader -/

theorem emitUntilTerminal_eq_of_no_terminal {evs : List StreamEvent}
    (h : ∀ e ∈ evs, e.isTerminal = false) : emitUntilTerminal evs = (evs, false) := by
  induction evs with
  | nil => rfl
  | cons e rest ih =>
    have he : e.isTerminal = false := h e (List.mem_cons_self e rest)
    have hr := ih (fun x hx => h x (List.mem_cons_of_mem e hx))
    simp [emitUntilTerminal, he, hr]

theorem emitUntilTerminal_snd_false {evs : List StreamEvent}
    (h : (emitUntilTerminal evs).2 = false) :
    (emitUntilTerminal evs).1 = evs ∧ ∀ e ∈ evs, e.isTerminal = false := by
  induction evs with
  | nil => simp [emitUntilTerminal]
  | cons e rest ih =>
    by_cases ht : e.isTerminal = true
    · simp [emitUntilTerminal, ht] at h
    · have ht' : e.isTerminal = false := by simpa using ht
      simp only [emitUntilTerminal, ht', Bool.false_eq_true, if_false] at h ⊢
      obtain ⟨h1, h2⟩ := ih h
      refine ⟨by rw [h1], ?_⟩
      intro x hx
      rcases List.mem_cons.mp hx with rfl | hx2
      · exact ht'
      · exact h2 x hx2

theorem emitUntilTerminal_snd_true {evs : List StreamEvent}
    (h : (emitUntilTerminal evs).2 = true) :
    (∃ e, (emitUntilTerminal evs).1.getLast? = some e ∧ e.isTerminal = true)
    ∧ ∀ x ∈ (emitUntilTerminal evs).1.dropLast, x.isTerminal = false := by
  induction evs with
  | nil => simp [emitUntilTerminal] at h
  | cons e rest ih =>
    by_cases ht : e.isTerminal = true
    · simp [emitUntilTerminal, ht]
    · have ht' : e.isTerminal = false := by simpa using ht
      simp only [emitUntilTerminal, ht', Bool.false_eq_true, if_false] at h ⊢
      obtain ⟨⟨t, hlast, hterm⟩, hdrop⟩ := ih h
      have hne : (emitUntilTerminal rest).1 ≠ [] := by
        intro hn; rw [hn] at hlast; simp at hlast
      constructor
      · refine ⟨t, ?_, hterm⟩
        have : e :: (emitUntilTerminal rest).1 = [e] ++ (emitUntilTerminal rest).1 := rfl
        rw [this, List.getLast?_append_of_ne_nil [e] hne]
        exact hlast
      · have : e :: (emitUntilTerminal rest).1 = [e] ++ (emitUntilTerminal rest).1 := rfl
        rw [this, List.dropLast_append_of_ne_nil [e] hne]
        intro x hx
        rcases List.mem_append.mp hx with hx1 | hx2
        · rw [List.mem_singleton.mp hx1]; exact ht'
        · exact hdrop x hx2

/-- C8: the SSE reader always ends a stream with exactly one terminal event,
placed last — in particular, once an `error` event has been emitted no further
event of that stream is forwarded, since `error` is terminal — and when the
adapter never produces a terminal event for any line, the forwarded events are
exactly the parsed events of every line followed by one synthetic `error`
event (unexpected closure is a failure, not silent success). -/
theorem readStreamEvents_spec (parseLine : String → List StreamEvent)
    (lines : List String) :
    (∃ e, (readStreamEvents parseLine lines).getLast? = some e ∧ e.isTerminal = true)
    ∧ (∀ x ∈ (readStreamEvents parseLine lines).dropLast, x.isTerminal = false)
    ∧ ((∀ line ∈ lines, ∀ e ∈ parseLine line, e.isTerminal = false) →
        readStreamEvents parseLine lines =
          (lines.map parseLine).flatten ++ [StreamEvent.error streamClosedMessage]) := by
  induction lines with
  | nil =>
    refine ⟨⟨StreamEvent.error streamClosedMessage, ?_, rfl⟩, ?_, ?_⟩ <;>
      simp [readStreamEvents]
  | cons line rest ih =>
    obtain ⟨⟨t, htl, htt⟩, hdrop, hflat⟩ := ih
    by_cases hb : (emitUntilTerminal (parseLine line)).2 = true
    · have hout : readStreamEvents parseLine (line :: rest)
          = (emitUntilTerminal (parseLine line)).1 := by
        simp [readStreamEvents, hb]
      obtain ⟨hex, hdl⟩ := emitUntilTerminal_snd_true hb
      refine ⟨?_, ?_, ?_⟩
      · rw [hout]; exact hex
      · rw [hout]; exact hdl
      · intro hno
        exfalso
        have hnone := emitUntilTerminal_eq_of_no_terminal
          (hno line (List.mem_cons_self line rest))
        rw [hnone] at hb
        simp at hb
    · have hb' : (emitUntilTerminal (parseLine line)).2 = false := by simpa using hb
      obtain ⟨hfst, hall⟩ := emitUntilTerminal_snd_false hb'
      have hout : readStreamEvents parseLine (line :: rest)
          = parseLine line ++ readStreamEvents parseLine rest := by
        simp [readStreamEvents, hb', hfst]
      have hrecne : readStreamEvents parseLine rest ≠ [] := by
        intro hn; rw [hn] at htl; simp at htl
      refine ⟨?_, ?_, ?_⟩
      · rw [hout, List.getLast?_append_of_ne_nil _ hrecne]
        exact ⟨t, htl, htt⟩
      · rw [hout, List.dropLast_append_of_ne_nil _ hrecne]
        intro x hx
        rcases List.mem_append.mp hx with hx1 | hx2
        · exact hall x hx1
        · exact hdrop x hx2
      · intro hno
        rw [hout, hflat (fun l hl e he => hno l (List.mem_cons_of_mem line hl) e he)]
        simp

/-- Witness for C8: a stream whose single line parses to no events ends with
the synthetic error event alone. -/
theorem readStreamEvents_spec_witness :
    readStreamEvents (fun _ => ([] : List StreamEvent)) ["data"] =
      [StreamEvent.error streamClosedMessage] := by
  have h := (readStreamEvents_spec (fun _ => ([] : List StreamEvent)) ["data"]).2.2
    (by simp)
  simpa using h

end Proma
